import Mathlib

/-!
Verification of the `Adafruit_LittleFS` filesystem facade
(`src/libraries/Adafruit_LittleFS/src/Adafruit_LittleFS.cpp`).

The facade wraps an opaque storage engine (the littlefs primitives
`lfs_mount`, `lfs_unmount`, `lfs_format`, `lfs_mkdir`, `lfs_stat`,
`lfs_remove`) behind a mutex and a `_mounted` flag.  We embed the facade
methods shallowly: the engine is a parameter (a record of state-passing
primitives returning integer result codes, as in C), the facade state is a
record holding the `_mounted` flag, the stored configuration pointer
(`Option Cfg`, `none` being NULL) and the engine state, and every method
additionally returns the list of observable events it performed (mutex
take/give, engine calls with their result codes, writes to `_mounted`),
so that claims about call counts, lock discipline and ordering can be
stated.  Mutex takes are recorded, not blocking: a take event stands for
the C `xSemaphoreTake(_mutex, portMAX_DELAY)` call.
-/

/-- littlefs result code `LFS_ERR_OK`. -/
def LFS_ERR_OK : Int := 0

/-- littlefs result code `LFS_ERR_EXIST`. -/
def LFS_ERR_EXIST : Int := -17

/-- littlefs result code `LFS_ERR_CORRUPT` (a representative hard
error). -/
def LFS_ERR_CORRUPT : Int := -52

/-- Observable events of a facade method: mutex take/give, writes of the
`_mounted` flag, and each engine-primitive call with its result code. -/
inductive Ev : Type
  | take : Ev
  | give : Ev
  | setMounted (b : Bool) : Ev
  | mountE (rc : Int) : Ev
  | unmountE (rc : Int) : Ev
  | formatE (rc : Int) : Ev
  | mkdirE (p : List Char) (rc : Int) : Ev
  | statE (p : List Char) (rc : Int) : Ev
  | removeE (p : List Char) (rc : Int) : Ev
  | openE (p : List Char) (mode : Nat) : Ev
deriving DecidableEq, Repr

/-- The storage engine: state-passing versions of the littlefs primitives
used by the facade.  `σ` is the engine-internal context (the C `lfs_t`),
`Cfg` the configuration type; `lfs_mount` and `lfs_format` receive the
facade's stored configuration pointer (`none` = NULL), as in the C calls
`lfs_mount(&_lfs, _lfs_cfg)` and `lfs_format(&_lfs, _lfs_cfg)`. -/
structure Engine (σ : Type) (Cfg : Type) where
  lfs_mount : σ → Option Cfg → σ × Int
  lfs_unmount : σ → σ × Int
  lfs_format : σ → Option Cfg → σ × Int
  lfs_mkdir : σ → List Char → σ × Int
  lfs_stat : σ → List Char → σ × Int
  lfs_remove : σ → List Char → σ × Int

/-- The facade state: the `_mounted` flag, the stored configuration
pointer `_lfs_cfg` (`none` = NULL) and the engine context `_lfs`. -/
structure Facade (σ : Type) (Cfg : Type) where
  mounted : Bool
  cfg : Option Cfg
  eng : σ
deriving DecidableEq, Repr

/-- A caller-facing file handle.  Modelled from the spec: the `File` class
is not under `src/`; per spec §4.5 `open` constructs, under the lock, a
handle bound to the facade with the given path and mode. -/
structure FileHandle : Type where
  path : List Char
  mode : Nat
deriving DecidableEq, Repr

/-- `Adafruit_LittleFS::begin(cfg)`: if `_mounted` return true; else store
the supplied configuration if non-NULL, fail if none is available, else
mount under the lock and set `_mounted = (err == LFS_ERR_OK)`. -/
def begin_fac {σ Cfg : Type} (e : Engine σ Cfg) (cfgArg : Option Cfg)
    (f : Facade σ Cfg) : Facade σ Cfg × Bool × List Ev :=
  if f.mounted then (f, true, [])
  else
    let cfg2 := if cfgArg.isSome then cfgArg else f.cfg
    if cfg2.isNone then ({ f with cfg := cfg2 }, false, [])
    else
      let err := (e.lfs_mount f.eng cfg2).2
      ({ mounted := err == LFS_ERR_OK, cfg := cfg2, eng := (e.lfs_mount f.eng cfg2).1 },
       err == LFS_ERR_OK,
       [Ev.take, Ev.mountE err, Ev.give, Ev.setMounted (err == LFS_ERR_OK)])

/-- `Adafruit_LittleFS::end()`: no-op when not mounted; otherwise clears
`_mounted` first, then unmounts under the lock; the engine result is
discarded (`(void) err`), the method returns void. -/
def end_fac {σ Cfg : Type} (e : Engine σ Cfg) (f : Facade σ Cfg) :
    Facade σ Cfg × Unit × List Ev :=
  if f.mounted then
    ({ f with mounted := false, eng := (e.lfs_unmount f.eng).1 }, (),
     [Ev.setMounted false, Ev.take, Ev.unmountE (e.lfs_unmount f.eng).2, Ev.give])
  else (f, (), [])

/-- `Adafruit_LittleFS::xWrap_format()`: takes the mutex (again), then if
`_mounted` unmounts, formats, and remounts, each step guarded by
`VERIFY_LFS(_, false)`.  `VERIFY_LFS` is a macro not under `src/`;
modelled from the spec: any step failing (non-`LFS_ERR_OK` result) aborts
the remaining steps and returns `false` — note that those early returns
skip the `xSemaphoreGive`, so the trace of a failing run ends without a
`give`.  `_mounted` is never written. -/
def xWrap_format {σ Cfg : Type} (e : Engine σ Cfg) (f : Facade σ Cfg) :
    Facade σ Cfg × Bool × List Ev :=
  if f.mounted then
    let s1 := (e.lfs_unmount f.eng).1
    let rc1 := (e.lfs_unmount f.eng).2
    if rc1 == LFS_ERR_OK then
      let s2 := (e.lfs_format s1 f.cfg).1
      let rc2 := (e.lfs_format s1 f.cfg).2
      if rc2 == LFS_ERR_OK then
        let s3 := (e.lfs_mount s2 f.cfg).1
        let rc3 := (e.lfs_mount s2 f.cfg).2
        if rc3 == LFS_ERR_OK then
          ({ f with eng := s3 }, true,
           [Ev.take, Ev.unmountE rc1, Ev.formatE rc2, Ev.mountE rc3, Ev.give])
        else
          ({ f with eng := s3 }, false,
           [Ev.take, Ev.unmountE rc1, Ev.formatE rc2, Ev.mountE rc3])
      else
        ({ f with eng := s2 }, false,
         [Ev.take, Ev.unmountE rc1, Ev.formatE rc2])
    else ({ f with eng := s1 }, false, [Ev.take, Ev.unmountE rc1])
  else
    let s2 := (e.lfs_format f.eng f.cfg).1
    let rc2 := (e.lfs_format f.eng f.cfg).2
    if rc2 == LFS_ERR_OK then
      ({ f with eng := s2 }, true, [Ev.take, Ev.formatE rc2, Ev.give])
    else ({ f with eng := s2 }, false, [Ev.take, Ev.formatE rc2])

/-- `Adafruit_LittleFS::format()`: takes the mutex, calls `xWrap_format`
(which takes the same non-recursive mutex a second time), gives once, and
returns `xWrap_format`'s result. -/
def format_fac {σ Cfg : Type} (e : Engine σ Cfg) (f : Facade σ Cfg) :
    Facade σ Cfg × Bool × List Ev :=
  ((xWrap_format e f).1, (xWrap_format e f).2.1,
   Ev.take :: ((xWrap_format e f).2.2 ++ [Ev.give]))

/-- `Adafruit_LittleFS::open(filepath, mode)`: constructs a `File` handle
under the lock.  Modelled from the spec (§4.5): the `File` constructor is
not under `src/`; it builds a handle bound to this facade and does not
touch the facade's fields. -/
def open_fac {σ Cfg : Type} (_e : Engine σ Cfg) (p : List Char) (mode : Nat)
    (f : Facade σ Cfg) : Facade σ Cfg × FileHandle × List Ev :=
  (f, { path := p, mode := mode }, [Ev.take, Ev.openE p mode, Ev.give])

/-- `Adafruit_LittleFS::exists(filepath)`: `lfs_stat` under the lock,
returns `err == LFS_ERR_OK`. -/
def exists_fac {σ Cfg : Type} (e : Engine σ Cfg) (p : List Char)
    (f : Facade σ Cfg) : Facade σ Cfg × Bool × List Ev :=
  ({ f with eng := (e.lfs_stat f.eng p).1 }, (e.lfs_stat f.eng p).2 == LFS_ERR_OK,
   [Ev.take, Ev.statE p (e.lfs_stat f.eng p).2, Ev.give])

/-- The parent-creation loop of `Adafruit_LittleFS::mkdir`: scan the
remainder `rest` of `fp` (current index `i`); at each `'/'` call
`lfs_mkdir` on the prefix `fp.take i` (the C code's `parent` buffer of
length `slash - filepath`); a result other than `LFS_ERR_OK` or
`LFS_ERR_EXIST` breaks out with `ret = false`. -/
def mkdirLoop {σ Cfg : Type} (e : Engine σ Cfg) (fp : List Char) :
    List Char → Nat → σ → σ × Bool × List Ev
  | [], _, s => (s, true, [])
  | c :: rest, i, s =>
    if c = '/' then
      let s1 := (e.lfs_mkdir s (fp.take i)).1
      let rc := (e.lfs_mkdir s (fp.take i)).2
      if rc == LFS_ERR_OK || rc == LFS_ERR_EXIST then
        ((mkdirLoop e fp rest (i + 1) s1).1, (mkdirLoop e fp rest (i + 1) s1).2.1,
         Ev.mkdirE (fp.take i) rc :: (mkdirLoop e fp rest (i + 1) s1).2.2)
      else (s1, false, [Ev.mkdirE (fp.take i) rc])
    else mkdirLoop e fp rest (i + 1) s

/-- `Adafruit_LittleFS::mkdir(filepath)`: skip one leading `'/'`, run the
parent-creation loop under the lock, then (if no parent failed) one final
`lfs_mkdir` on the full path, `LFS_ERR_EXIST` again counting as success;
the mutex is given exactly once, on every path. -/
def mkdir_fac {σ Cfg : Type} (e : Engine σ Cfg) (fp : List Char)
    (f : Facade σ Cfg) : Facade σ Cfg × Bool × List Ev :=
  let start := if fp.head? = some '/' then 1 else 0
  let L := mkdirLoop e fp (fp.drop start) start f.eng
  if L.2.1 then
    let rc := (e.lfs_mkdir L.1 fp).2
    ({ f with eng := (e.lfs_mkdir L.1 fp).1 },
     rc == LFS_ERR_OK || rc == LFS_ERR_EXIST,
     Ev.take :: (L.2.2 ++ [Ev.mkdirE fp rc, Ev.give]))
  else ({ f with eng := L.1 }, false, Ev.take :: (L.2.2 ++ [Ev.give]))

/-- `Adafruit_LittleFS::remove(filepath)`: `lfs_remove` under the lock,
returns `err == LFS_ERR_OK`. -/
def remove_fac {σ Cfg : Type} (e : Engine σ Cfg) (p : List Char)
    (f : Facade σ Cfg) : Facade σ Cfg × Bool × List Ev :=
  ({ f with eng := (e.lfs_remove f.eng p).1 },
   (e.lfs_remove f.eng p).2 == LFS_ERR_OK,
   [Ev.take, Ev.removeE p (e.lfs_remove f.eng p).2, Ev.give])

/-- `Adafruit_LittleFS::rmdir(filepath)`: identical body to `remove`. -/
def rmdir_fac {σ Cfg : Type} (e : Engine σ Cfg) (p : List Char)
    (f : Facade σ Cfg) : Facade σ Cfg × Bool × List Ev :=
  ({ f with eng := (e.lfs_remove f.eng p).1 },
   (e.lfs_remove f.eng p).2 == LFS_ERR_OK,
   [Ev.take, Ev.removeE p (e.lfs_remove f.eng p).2, Ev.give])

/-- `Adafruit_LittleFS::rmdir_r(filepath)`: identical body to `remove`
(the engine's `lfs_remove` is relied on to handle non-empty folders). -/
def rmdir_r_fac {σ Cfg : Type} (e : Engine σ Cfg) (p : List Char)
    (f : Facade σ Cfg) : Facade σ Cfg × Bool × List Ev :=
  ({ f with eng := (e.lfs_remove f.eng p).1 },
   (e.lfs_remove f.eng p).2 == LFS_ERR_OK,
   [Ev.take, Ev.removeE p (e.lfs_remove f.eng p).2, Ev.give])

/-!
Specification-side definitions (from the spec's words in §4.2): scan the
path left to right, collect a parent path at every `/` after the optional
leading slash, then walk the resulting list (parents, then the full path)
issuing one single-level create each, aborting on any result other than
success / already-exists.
-/

/-- Indices (in the full path) of every `'/'` in `rest`, where `rest`
starts at index `i` of the full path: a left-to-right scan. -/
def sepIdx : List Char → Nat → List Nat
  | [], _ => []
  | c :: rest, i =>
    if c = '/' then i :: sepIdx rest (i + 1) else sepIdx rest (i + 1)

/-- The candidate parent paths of `fp`, per the spec: for every `'/'`
after the optional leading slash, the prefix of `fp` up to that
separator. -/
def parentPaths (fp : List Char) : List (List Char) :=
  let start := if fp.head? = some '/' then 1 else 0
  (sepIdx (fp.drop start) start).map fp.take

/-- Walk a list of paths, issuing one single-level `lfs_mkdir` on each;
`LFS_ERR_OK` and `LFS_ERR_EXIST` count as success, anything else aborts
the walk with `false`. -/
def specWalk {σ Cfg : Type} (e : Engine σ Cfg) :
    List (List Char) → σ → σ × Bool × List Ev
  | [], s => (s, true, [])
  | p :: ps, s =>
    let s1 := (e.lfs_mkdir s p).1
    let rc := (e.lfs_mkdir s p).2
    if rc == LFS_ERR_OK || rc == LFS_ERR_EXIST then
      ((specWalk e ps s1).1, (specWalk e ps s1).2.1,
       Ev.mkdirE p rc :: (specWalk e ps s1).2.2)
    else (s1, false, [Ev.mkdirE p rc])

/-- An event is a soft success: any non-create event, or a create whose
result is `LFS_ERR_OK` or `LFS_ERR_EXIST`. -/
def evSoft : Ev → Bool
  | Ev.mkdirE _ rc => rc == LFS_ERR_OK || rc == LFS_ERR_EXIST
  | _ => true

/-- The engine-call events of a trace (mutex and flag events dropped). -/
def engEvents (tr : List Ev) : List Ev :=
  tr.filter fun ev =>
    match ev with
    | Ev.take => false
    | Ev.give => false
    | Ev.setMounted _ => false
    | _ => true

/-!
Reference engines.  The littlefs engine itself is not under `src/` (it is
an external collaborator); the spec treats it as opaque.  Two models are
used, both modelled from the spec:
* `mengE` tracks whether the engine context reflects a successful mount
  (spec §3 invariant) and reads each call's result code from a script;
  mounting succeeds exactly when the scripted code is `LFS_ERR_OK`, and
  unmount/format leave the context unmounted.
* `dirEng` tracks the set of created directories and reports
  `LFS_ERR_EXIST` when asked to create an existing one (spec §4.2).
-/

/-- Mount-tracking engine state: `em` is whether the engine context
reflects a successful mount; `tape` scripts the result codes of the
successive engine calls. -/
structure MEng : Type where
  em : Bool
  tape : List Int
deriving DecidableEq, Repr

/-- Pop the next scripted result code (`LFS_ERR_OK` when the script is
exhausted). -/
def tpop (s : MEng) : MEng × Int :=
  ({ s with tape := s.tape.tail }, s.tape.headD LFS_ERR_OK)

/-- Modelled from the spec: the opaque engine's mount tracking.  A mount
leaves the context mounted exactly when it succeeds; unmount and format
leave it unmounted; directory/stat/remove calls do not change it. -/
def mengE : Engine MEng Unit where
  lfs_mount := fun s _ =>
    ({ em := (tpop s).2 == LFS_ERR_OK, tape := (tpop s).1.tape }, (tpop s).2)
  lfs_unmount := fun s =>
    ({ em := false, tape := (tpop s).1.tape }, (tpop s).2)
  lfs_format := fun s _ =>
    ({ em := false, tape := (tpop s).1.tape }, (tpop s).2)
  lfs_mkdir := fun s _ => tpop s
  lfs_stat := fun s _ => tpop s
  lfs_remove := fun s _ => tpop s

/-- The spec §3 invariant: the `_mounted` flag equals `Mounted` exactly
when the engine context reflects a successful mount. -/
def MountInv {Cfg : Type} (f : Facade MEng Cfg) : Prop :=
  f.mounted = f.eng.em

instance {Cfg : Type} (f : Facade MEng Cfg) : Decidable (MountInv f) := by
  unfold MountInv; infer_instance

/-- Modelled from the spec: a directory-set engine whose single-level
create reports `LFS_ERR_EXIST` on an existing directory and otherwise
creates the directory and reports `LFS_ERR_OK`; its other primitives are
irrelevant to `mkdir` and leave the state unchanged. -/
def dirEng : Engine (List (List Char)) Unit where
  lfs_mount := fun s _ => (s, LFS_ERR_OK)
  lfs_unmount := fun s => (s, LFS_ERR_OK)
  lfs_format := fun _ _ => ([], LFS_ERR_OK)
  lfs_mkdir := fun s p =>
    if p ∈ s then (s, LFS_ERR_EXIST) else (p :: s, LFS_ERR_OK)
  lfs_stat := fun s p => (s, if p ∈ s then LFS_ERR_OK else -2)
  lfs_remove := fun s p => (s.erase p, if p ∈ s then LFS_ERR_OK else -2)

/-!
Helper lemmas.
-/

/-- `xWrap_format` never writes the `_mounted` flag. -/
lemma xWrap_format_mounted {σ Cfg : Type} (e : Engine σ Cfg) (f : Facade σ Cfg) :
    (xWrap_format e f).1.mounted = f.mounted := by
  unfold xWrap_format
  dsimp only
  split <;> [skip; split <;> rfl]
  split
  · split
    · split <;> rfl
    · rfl
  · rfl

/-- `format` never writes the `_mounted` flag. -/
lemma format_fac_mounted {σ Cfg : Type} (e : Engine σ Cfg) (f : Facade σ Cfg) :
    (format_fac e f).1.mounted = f.mounted := by
  unfold format_fac
  exact xWrap_format_mounted e f

/-- `xWrap_format` never writes the stored configuration. -/
lemma xWrap_format_cfg {σ Cfg : Type} (e : Engine σ Cfg) (f : Facade σ Cfg) :
    (xWrap_format e f).1.cfg = f.cfg := by
  unfold xWrap_format
  dsimp only
  split <;> [skip; split <;> rfl]
  split
  · split
    · split <;> rfl
    · rfl
  · rfl

/-- The parent loop equals the spec-side walk over the scanned
separator prefixes. -/
lemma mkdirLoop_eq_specWalk {σ Cfg : Type} (e : Engine σ Cfg) (fp : List Char) :
    ∀ (rest : List Char) (i : Nat) (s : σ),
      mkdirLoop e fp rest i s = specWalk e ((sepIdx rest i).map fp.take) s := by
  intro rest
  induction rest with
  | nil => intro i s; rfl
  | cons c r ih =>
    intro i s
    by_cases hc : c = '/'
    · simp only [mkdirLoop, sepIdx, hc, if_pos, List.map_cons, specWalk]
      split <;> simp [ih]
    · simp only [mkdirLoop, sepIdx, hc, if_neg, ite_false, ih]

/-- Appending to a walk, when the first leg fully succeeds: the walk
continues into the second leg. -/
lemma specWalk_append_true {σ Cfg : Type} (e : Engine σ Cfg)
    (l1 l2 : List (List Char)) (s : σ) (h : (specWalk e l1 s).2.1 = true) :
    specWalk e (l1 ++ l2) s =
      ((specWalk e l2 (specWalk e l1 s).1).1,
       (specWalk e l2 (specWalk e l1 s).1).2.1,
       (specWalk e l1 s).2.2 ++ (specWalk e l2 (specWalk e l1 s).1).2.2) := by
  induction l1 generalizing s with
  | nil => simp [specWalk]
  | cons p ps ih =>
    simp only [List.cons_append, specWalk] at h ⊢
    by_cases hc :
        ((e.lfs_mkdir s p).2 == LFS_ERR_OK
          || (e.lfs_mkdir s p).2 == LFS_ERR_EXIST) = true
    · simp only [hc, if_true, List.append_eq] at h ⊢
      rw [ih _ h]
      simp
    · simp [hc] at h

/-- Appending to a walk, when the first leg fails: the second leg is
never entered. -/
lemma specWalk_append_false {σ Cfg : Type} (e : Engine σ Cfg)
    (l1 l2 : List (List Char)) (s : σ) (h : (specWalk e l1 s).2.1 = false) :
    specWalk e (l1 ++ l2) s = specWalk e l1 s := by
  induction l1 generalizing s with
  | nil => simp [specWalk] at h
  | cons p ps ih =>
    simp only [List.cons_append, specWalk] at h ⊢
    by_cases hc :
        ((e.lfs_mkdir s p).2 == LFS_ERR_OK
          || (e.lfs_mkdir s p).2 == LFS_ERR_EXIST) = true
    · simp only [hc, if_true, List.append_eq] at h ⊢
      rw [ih _ h]
    · simp [hc]

/-- A walk succeeds exactly when every event of its trace is a soft
success. -/
lemma specWalk_ret_all {σ Cfg : Type} (e : Engine σ Cfg) (l : List (List Char))
    (s : σ) :
    (specWalk e l s).2.1 = ((specWalk e l s).2.2).all evSoft := by
  induction l generalizing s with
  | nil => rfl
  | cons p ps ih =>
    simp only [specWalk]
    split
    · rename_i h
      simp [evSoft, h, ih]
    · rename_i h
      simp only [List.all_cons, List.all_nil, evSoft, Bool.and_true]
      exact (Bool.eq_false_iff.mpr h).symm

/-- Walk traces contain only create events. -/
lemma specWalk_trace_mk {σ Cfg : Type} (e : Engine σ Cfg) (l : List (List Char))
    (s : σ) :
    ∀ ev ∈ (specWalk e l s).2.2, ∃ p rc, ev = Ev.mkdirE p rc := by
  induction l generalizing s with
  | nil => intro ev h; simp [specWalk] at h
  | cons p ps ih =>
    simp only [specWalk]
    split
    · intro ev h
      rcases List.mem_cons.mp h with h | h
      · exact ⟨p, _, h⟩
      · exact ih _ ev h
    · intro ev h
      rcases List.mem_cons.mp h with h | h
      · exact ⟨p, _, h⟩
      · simp at h

/-- Walk traces contain no `take` event. -/
lemma specWalk_count_take {σ Cfg : Type} (e : Engine σ Cfg) (l : List (List Char))
    (s : σ) : ((specWalk e l s).2.2).count Ev.take = 0 := by
  rw [List.count_eq_zero]
  intro hmem
  rcases specWalk_trace_mk e l s _ hmem with ⟨p, rc, h⟩
  cases h

/-- Walk traces contain no `give` event. -/
lemma specWalk_count_give {σ Cfg : Type} (e : Engine σ Cfg) (l : List (List Char))
    (s : σ) : ((specWalk e l s).2.2).count Ev.give = 0 := by
  rw [List.count_eq_zero]
  intro hmem
  rcases specWalk_trace_mk e l s _ hmem with ⟨p, rc, h⟩
  cases h

/-- A one-element walk: one create, soft-success as return value. -/
lemma specWalk_single {σ Cfg : Type} (e : Engine σ Cfg) (p : List Char) (s : σ) :
    specWalk e [p] s =
      ((e.lfs_mkdir s p).1,
       ((e.lfs_mkdir s p).2 == LFS_ERR_OK || (e.lfs_mkdir s p).2 == LFS_ERR_EXIST),
       [Ev.mkdirE p (e.lfs_mkdir s p).2]) := by
  simp only [specWalk]
  by_cases hc :
      ((e.lfs_mkdir s p).2 == LFS_ERR_OK
        || (e.lfs_mkdir s p).2 == LFS_ERR_EXIST) = true
  · simp [hc, specWalk]
  · simp only [Bool.not_eq_true] at hc
    simp [hc]

/-- `mkdir` equals the locked spec walk over the separator prefixes
followed by the full path. -/
lemma mkdir_fac_spec {σ Cfg : Type} (e : Engine σ Cfg) (fp : List Char)
    (f : Facade σ Cfg) :
    mkdir_fac e fp f =
      ({ f with eng := (specWalk e (parentPaths fp ++ [fp]) f.eng).1 },
       (specWalk e (parentPaths fp ++ [fp]) f.eng).2.1,
       Ev.take :: ((specWalk e (parentPaths fp ++ [fp]) f.eng).2.2 ++ [Ev.give])) := by
  simp only [mkdir_fac, parentPaths, mkdirLoop_eq_specWalk]
  by_cases h :
      (specWalk e
        ((sepIdx (fp.drop (if fp.head? = some '/' then 1 else 0))
          (if fp.head? = some '/' then 1 else 0)).map fp.take) f.eng).2.1 = true
  · rw [specWalk_append_true _ _ _ _ h, specWalk_single]
    simp [h]
  · simp only [Bool.not_eq_true] at h
    rw [specWalk_append_false _ _ _ _ h]
    simp [h]

/-- The directory-set engine: creating `p` makes `p` present. -/
lemma dirEng_mkdir_self_mem (s : List (List Char)) (p : List Char) :
    p ∈ (dirEng.lfs_mkdir s p).1 := by
  simp only [dirEng]
  split <;> simp_all

/-- The directory-set engine: creating never removes a directory. -/
lemma dirEng_mkdir_mono (s : List (List Char)) (p q : List Char) (h : q ∈ s) :
    q ∈ (dirEng.lfs_mkdir s p).1 := by
  simp only [dirEng]
  split <;> simp_all

/-- The directory-set engine: every create is a soft success. -/
lemma dirEng_soft (s : List (List Char)) (p : List Char) :
    ((dirEng.lfs_mkdir s p).2 == LFS_ERR_OK
      || (dirEng.lfs_mkdir s p).2 == LFS_ERR_EXIST) = true := by
  simp only [dirEng]
  split <;> simp [LFS_ERR_OK, LFS_ERR_EXIST]

/-- Walks over the directory-set engine preserve existing directories. -/
lemma specWalk_dir_mono (l : List (List Char)) (s : List (List Char))
    (q : List Char) (h : q ∈ s) : q ∈ (specWalk dirEng l s).1 := by
  induction l generalizing s with
  | nil => simpa [specWalk]
  | cons p ps ih =>
    simp only [specWalk, dirEng_soft, if_true]
    exact ih _ (dirEng_mkdir_mono s p q h)

/-- Walks over the directory-set engine always succeed. -/
lemma specWalk_dir_ret (l : List (List Char)) (s : List (List Char)) :
    (specWalk dirEng l s).2.1 = true := by
  induction l generalizing s with
  | nil => rfl
  | cons p ps ih =>
    simp only [specWalk, dirEng_soft, if_true]
    exact ih _

/-- After a walk over the directory-set engine, every walked path is
present. -/
lemma specWalk_dir_mem (l : List (List Char)) (s : List (List Char)) :
    ∀ q ∈ l, q ∈ (specWalk dirEng l s).1 := by
  induction l generalizing s with
  | nil => intro q hq; simp at hq
  | cons p ps ih =>
    intro q hq
    simp only [specWalk, dirEng_soft, if_true]
    rcases List.mem_cons.mp hq with h | h
    · subst h
      exact specWalk_dir_mono ps _ q (dirEng_mkdir_self_mem s q)
    · exact ih _ q h

/-- A walk over the directory-set engine whose paths all exist is a
no-op: every create reports `LFS_ERR_EXIST` and the state is unchanged. -/
lemma specWalk_dir_fixed (l : List (List Char)) (s : List (List Char))
    (h : ∀ q ∈ l, q ∈ s) :
    specWalk dirEng l s = (s, true, l.map fun p => Ev.mkdirE p LFS_ERR_EXIST) := by
  induction l with
  | nil => rfl
  | cons p ps ih =>
    have hp : p ∈ s := h p (List.mem_cons_self p ps)
    have hmk : dirEng.lfs_mkdir s p = (s, LFS_ERR_EXIST) := by
      simp [dirEng, hp]
    simp only [specWalk, hmk]
    rw [ih fun q hq => h q (List.mem_cons_of_mem p hq)]
    simp [LFS_ERR_OK, LFS_ERR_EXIST]

/-- Walks over the mount-tracking engine never change the engine's
mounted bit (`lfs_mkdir` only consumes the script). -/
lemma specWalk_meng_em (l : List (List Char)) (s : MEng) :
    ((specWalk mengE l s).1).em = s.em := by
  induction l generalizing s with
  | nil => rfl
  | cons p ps ih =>
    simp only [specWalk]
    split
    · rw [ih]
      rfl
    · rfl

lemma xWrap_meng_inv (f : Facade MEng Unit)
    (hret : (xWrap_format mengE f).2.1 = true) :
    MountInv (xWrap_format mengE f).1 := by
  rcases f with ⟨fm, fc, fe⟩
  unfold MountInv
  cases fm
  · by_cases h0 : fe.tape.head?.getD LFS_ERR_OK = LFS_ERR_OK <;>
      simp [xWrap_format, mengE, tpop, h0] at hret ⊢
  · by_cases h0 : fe.tape.head?.getD LFS_ERR_OK = LFS_ERR_OK
    · by_cases h1 : fe.tape[1]?.getD LFS_ERR_OK = LFS_ERR_OK
      · by_cases h2 : fe.tape[2]?.getD LFS_ERR_OK = LFS_ERR_OK <;>
          simp [xWrap_format, mengE, tpop, h0, h1, h2] at hret ⊢
      · simp [xWrap_format, mengE, tpop, h0, h1] at hret
    · simp [xWrap_format, mengE, tpop, h0] at hret

lemma format_meng_inv (f : Facade MEng Unit)
    (hret : (format_fac mengE f).2.1 = true) :
    MountInv (format_fac mengE f).1 := by
  unfold format_fac at hret ⊢
  exact xWrap_meng_inv f hret

lemma begin_meng_inv (cfgArg : Option Unit) (f : Facade MEng Unit)
    (h : MountInv f) : MountInv (begin_fac mengE cfgArg f).1 := by
  unfold MountInv at h ⊢
  by_cases hm : f.mounted = true
  · simpa [begin_fac, hm] using h
  · rcases cfgArg with _ | c
    · rcases hc : f.cfg with _ | c2
      · simpa [begin_fac, hm, hc] using h
      · simp [begin_fac, hm, hc, mengE, tpop]
    · simp [begin_fac, hm, mengE, tpop]

lemma end_meng_inv (f : Facade MEng Unit) (h : MountInv f) :
    MountInv (end_fac mengE f).1 := by
  unfold MountInv at h ⊢
  simp only [end_fac]
  split
  · simp [mengE, tpop]
  · exact h

lemma mkdir_meng_inv (fp : List Char) (f : Facade MEng Unit)
    (h : MountInv f) : MountInv (mkdir_fac mengE fp f).1 := by
  unfold MountInv at h ⊢
  rw [mkdir_fac_spec]
  simpa [specWalk_meng_em] using h

lemma exists_meng_inv (p : List Char) (f : Facade MEng Unit)
    (h : MountInv f) : MountInv (exists_fac mengE p f).1 := by
  unfold MountInv at h ⊢
  simpa [exists_fac, mengE, tpop] using h

lemma remove_meng_inv (p : List Char) (f : Facade MEng Unit)
    (h : MountInv f) : MountInv (remove_fac mengE p f).1 := by
  unfold MountInv at h ⊢
  simpa [remove_fac, mengE, tpop] using h

lemma rmdir_meng_inv (p : List Char) (f : Facade MEng Unit)
    (h : MountInv f) : MountInv (rmdir_fac mengE p f).1 := by
  unfold MountInv at h ⊢
  simpa [rmdir_fac, mengE, tpop] using h

lemma rmdir_r_meng_inv (p : List Char) (f : Facade MEng Unit)
    (h : MountInv f) : MountInv (rmdir_r_fac mengE p f).1 := by
  unfold MountInv at h ⊢
  simpa [rmdir_r_fac, mengE, tpop] using h

lemma open_meng_inv (p : List Char) (m : Nat) (f : Facade MEng Unit)
    (h : MountInv f) : MountInv (open_fac mengE p m f).1 := by
  unfold MountInv at h ⊢
  simpa [open_fac] using h

/-- C4: on a mounted facade, `begin` returns `true` immediately, leaves the
facade untouched and performs no event at all — in particular no engine
mount call. -/
theorem c4_begin_mounted_noop {σ Cfg : Type} (e : Engine σ Cfg)
    (cfgArg : Option Cfg) (f : Facade σ Cfg) (h : f.mounted = true) :
    begin_fac e cfgArg f = (f, true, []) := by
  simp [begin_fac, h]

/-- C4 witness: a second `begin` on a mounted facade. -/
theorem c4_witness :
    begin_fac mengE none
        { mounted := true, cfg := some (), eng := { em := true, tape := [] } } =
      ({ mounted := true, cfg := some (), eng := { em := true, tape := [] } },
       true, []) :=
  c4_begin_mounted_noop mengE none _ rfl

/-- C5: on an unmounted facade, `begin` replaces the stored configuration
by the supplied one; with no configuration available it fails with no
engine call; otherwise it performs exactly one engine mount call and sets
`_mounted` to, and returns, whether that call reported `LFS_ERR_OK`. -/
theorem c5_begin_unmounted {σ Cfg : Type} (e : Engine σ Cfg)
    (cfgArg : Option Cfg) (f : Facade σ Cfg) (h : f.mounted = false) :
    ((if cfgArg.isSome then cfgArg else f.cfg) = none →
      begin_fac e cfgArg f =
        ({ f with cfg := if cfgArg.isSome then cfgArg else f.cfg }, false, [])) ∧
    (∀ c, (if cfgArg.isSome then cfgArg else f.cfg) = some c →
      begin_fac e cfgArg f =
        ({ mounted := (e.lfs_mount f.eng (some c)).2 == LFS_ERR_OK,
           cfg := some c, eng := (e.lfs_mount f.eng (some c)).1 },
         (e.lfs_mount f.eng (some c)).2 == LFS_ERR_OK,
         [Ev.take, Ev.mountE (e.lfs_mount f.eng (some c)).2, Ev.give,
          Ev.setMounted ((e.lfs_mount f.eng (some c)).2 == LFS_ERR_OK)])) := by
  constructor
  · intro hn
    simp [begin_fac, h, hn]
  · intro c hc
    simp [begin_fac, h, hc]

/-- C5 witness: a first `begin` with a supplied configuration mounts. -/
theorem c5_witness :
    begin_fac mengE (some ())
        { mounted := false, cfg := none, eng := { em := false, tape := [LFS_ERR_OK] } } =
      ({ mounted := true, cfg := some (), eng := { em := true, tape := [] } },
       true, [Ev.take, Ev.mountE LFS_ERR_OK, Ev.give, Ev.setMounted true]) :=
  (((c5_begin_unmounted mengE (some ())
      { mounted := false, cfg := none, eng := { em := false, tape := [LFS_ERR_OK] } }
      rfl).2 () rfl).trans (by decide))

/-- C6: `end` is a no-op (no event, no state change) on an unmounted
facade; on a mounted facade its trace clears the `_mounted` flag strictly
before the mutex take and the engine unmount call, and the engine result
is dropped (the return value is `()` in all cases). -/
theorem c6_end_clears_flag_first {σ Cfg : Type} (e : Engine σ Cfg)
    (f : Facade σ Cfg) :
    (f.mounted = false → end_fac e f = (f, (), [])) ∧
    (f.mounted = true →
      end_fac e f =
        ({ f with mounted := false, eng := (e.lfs_unmount f.eng).1 }, (),
         [Ev.setMounted false, Ev.take, Ev.unmountE (e.lfs_unmount f.eng).2,
          Ev.give])) := by
  constructor <;> intro h <;> simp [end_fac, h]

/-- C6 witness: `end` on a mounted facade. -/
theorem c6_witness :
    end_fac mengE
        { mounted := true, cfg := some (), eng := { em := true, tape := [LFS_ERR_OK] } } =
      ({ mounted := false, cfg := some (), eng := { em := false, tape := [] } }, (),
       [Ev.setMounted false, Ev.take, Ev.unmountE LFS_ERR_OK, Ev.give]) :=
  ((c6_end_clears_flag_first mengE _).2 rfl).trans (by decide)

/-- C9: `remove`, `rmdir` and `rmdir_r` are the same function: one engine
`lfs_remove` call on the path under the lock, returning whether it
reported `LFS_ERR_OK`. -/
theorem c9_remove_rmdir_equivalent {σ Cfg : Type} (e : Engine σ Cfg)
    (p : List Char) (f : Facade σ Cfg) :
    remove_fac e p f = rmdir_fac e p f ∧
    rmdir_fac e p f = rmdir_r_fac e p f ∧
    remove_fac e p f =
      ({ f with eng := (e.lfs_remove f.eng p).1 },
       (e.lfs_remove f.eng p).2 == LFS_ERR_OK,
       [Ev.take, Ev.removeE p (e.lfs_remove f.eng p).2, Ev.give]) :=
  ⟨rfl, rfl, rfl⟩

/-- C10: `format`, `mkdir`, `exists`, `remove`, `rmdir`, `rmdir_r` and
`open` never write the `_mounted` flag, on any engine and any path. -/
theorem c10_mount_state_frame {σ Cfg : Type} (e : Engine σ Cfg)
    (f : Facade σ Cfg) (fp p : List Char) (m : Nat) :
    (format_fac e f).1.mounted = f.mounted ∧
    (mkdir_fac e fp f).1.mounted = f.mounted ∧
    (exists_fac e p f).1.mounted = f.mounted ∧
    (remove_fac e p f).1.mounted = f.mounted ∧
    (rmdir_fac e p f).1.mounted = f.mounted ∧
    (rmdir_r_fac e p f).1.mounted = f.mounted ∧
    (open_fac e p m f).1.mounted = f.mounted := by
  refine ⟨format_fac_mounted e f, ?_, rfl, rfl, rfl, rfl, rfl⟩
  rw [mkdir_fac_spec]

/-- C7: `mkdir(filepath)` equals the spec-side walk: one single-level
create on the prefix up to each `'/'` after the optional stripped leading
slash, in left-to-right order, aborting on any result other than
`LFS_ERR_OK`/`LFS_ERR_EXIST`, then one final create on the full path; it
returns `true` exactly when every issued create was a soft success, and
its whole trace sits between a single mutex take and a single give. -/
theorem c7_mkdir_parent_walk {σ Cfg : Type} (e : Engine σ Cfg)
    (fp : List Char) (f : Facade σ Cfg) :
    mkdir_fac e fp f =
      ({ f with eng := (specWalk e (parentPaths fp ++ [fp]) f.eng).1 },
       (specWalk e (parentPaths fp ++ [fp]) f.eng).2.1,
       Ev.take :: ((specWalk e (parentPaths fp ++ [fp]) f.eng).2.2 ++ [Ev.give])) ∧
    (mkdir_fac e fp f).2.1 = ((mkdir_fac e fp f).2.2).all evSoft ∧
    ((mkdir_fac e fp f).2.2).count Ev.take = 1 ∧
    ((mkdir_fac e fp f).2.2).count Ev.give = 1 := by
  refine ⟨mkdir_fac_spec e fp f, ?_, ?_, ?_⟩
  · rw [mkdir_fac_spec]
    simp only [List.all_cons, List.all_append, List.all_nil, evSoft,
      Bool.true_and, Bool.and_true]
    exact specWalk_ret_all e _ f.eng
  · rw [mkdir_fac_spec]
    simp [List.count_cons, List.count_append, specWalk_count_take]
  · rw [mkdir_fac_spec]
    simp [List.count_cons, List.count_append, specWalk_count_give]

/-- C8: after a successful `mkdir(p)` on the directory-set engine, a
second `mkdir(p)` also returns `true` and leaves the facade (including
the set of directories) unchanged. -/
theorem c8_mkdir_idempotent (p : List Char)
    (f : Facade (List (List Char)) Unit)
    (_hfirst : (mkdir_fac dirEng p f).2.1 = true) :
    (mkdir_fac dirEng p (mkdir_fac dirEng p f).1).1 =
      (mkdir_fac dirEng p f).1 ∧
    (mkdir_fac dirEng p (mkdir_fac dirEng p f).1).2.1 = true := by
  have hfix := specWalk_dir_fixed (parentPaths p ++ [p])
      (specWalk dirEng (parentPaths p ++ [p]) f.eng).1
      (specWalk_dir_mem _ _)
  constructor <;> simp only [mkdir_fac_spec] <;> simp [hfix]

/-- C8 witness: `mkdir` of `/a/b` on an empty directory set, twice. -/
theorem c8_witness :
    (mkdir_fac dirEng ['/', 'a', '/', 'b']
        { mounted := false, cfg := some (), eng := [] }).2.1 = true ∧
    (mkdir_fac dirEng ['/', 'a', '/', 'b']
        ((mkdir_fac dirEng ['/', 'a', '/', 'b']
            { mounted := false, cfg := some (), eng := [] }).1)).1 =
      (mkdir_fac dirEng ['/', 'a', '/', 'b']
        { mounted := false, cfg := some (), eng := [] }).1 :=
  ⟨by decide,
   (c8_mkdir_idempotent ['/', 'a', '/', 'b']
     { mounted := false, cfg := some (), eng := [] } (by decide)).1⟩

/-- C1 (amended): the mount invariant (`_mounted` equals the engine
context's mounted status) is preserved by `begin`, `end`, `mkdir`,
`exists`, `remove`, `rmdir`, `rmdir_r` and `open`, and by `format` when
it returns `true`.  (As stated the claim also covered `format`'s failure
paths; `c1_counterexample` refutes that part.) -/
theorem c1_mount_invariant_preserved (f : Facade MEng Unit)
    (cfgArg : Option Unit) (fp p : List Char) (m : Nat) (h : MountInv f) :
    MountInv (begin_fac mengE cfgArg f).1 ∧
    MountInv (end_fac mengE f).1 ∧
    ((format_fac mengE f).2.1 = true → MountInv (format_fac mengE f).1) ∧
    MountInv (mkdir_fac mengE fp f).1 ∧
    MountInv (exists_fac mengE p f).1 ∧
    MountInv (remove_fac mengE p f).1 ∧
    MountInv (rmdir_fac mengE p f).1 ∧
    MountInv (rmdir_r_fac mengE p f).1 ∧
    MountInv (open_fac mengE p m f).1 :=
  ⟨begin_meng_inv cfgArg f h, end_meng_inv f h, format_meng_inv f,
   mkdir_meng_inv fp f h, exists_meng_inv p f h, remove_meng_inv p f h,
   rmdir_meng_inv p f h, rmdir_r_meng_inv p f h, open_meng_inv p m f h⟩

/-- C1 witness: the invariant after a successful `begin`. -/
theorem c1_witness :
    MountInv (begin_fac mengE (some ())
        { mounted := false, cfg := none,
          eng := { em := false, tape := [LFS_ERR_OK] } }).1 :=
  (c1_mount_invariant_preserved _ (some ()) [] [] 0 (by decide)).1

/-- C1 counterexample: on a mounted facade whose engine unmount succeeds
and whose engine format then fails, `format` returns with `_mounted`
still `Mounted` while the engine context is unmounted: the invariant held
before the call and is broken after it. -/
theorem c1_counterexample :
    MountInv
      ({ mounted := true, cfg := some (),
         eng := { em := true, tape := [LFS_ERR_OK, LFS_ERR_CORRUPT] } } : Facade MEng Unit) ∧
    ¬ MountInv (format_fac mengE
        { mounted := true, cfg := some (),
          eng := { em := true, tape := [LFS_ERR_OK, LFS_ERR_CORRUPT] } }).1 := by
  decide

/-- C2 (code bug): `format()` takes the facade mutex and then
`xWrap_format` takes the same non-recursive mutex again — two
acquisitions instead of the one the spec describes — and on a failing
step `xWrap_format` returns without its give, so the trace of a failed
`format()` ends with more takes than gives. -/
theorem c2_format_double_lock :
    ((format_fac mengE
        { mounted := false, cfg := some (),
          eng := { em := false, tape := [LFS_ERR_CORRUPT] } }).2.2).count Ev.take = 2 ∧
    ((format_fac mengE
        { mounted := false, cfg := some (),
          eng := { em := false, tape := [LFS_ERR_CORRUPT] } }).2.2).count Ev.give = 1 ∧
    (format_fac mengE
        { mounted := false, cfg := some (),
          eng := { em := false, tape := [LFS_ERR_CORRUPT] } }).2.1 = false := by
  decide

/-- C3 (amended): `format` on a mounted facade issues engine unmount,
then format, then remount, truncated at the first failing step; on an
unmounted facade it issues only engine format; it returns `true` exactly
when every issued step reported `LFS_ERR_OK`; and on success the pre-call
mount state (flag and engine context) is restored.  (The claim's "and
only on success" is refuted by `c3_counterexample`.  The facade is
`⟨fm, fc, ⟨em, tape⟩⟩`; the script tape `t0 :: t1 :: t2 :: rest` supplies
the engine results of the successive steps.) -/
theorem c3_format_sequence (fm em : Bool) (fc : Option Unit)
    (t0 t1 t2 : Int) (rest : List Int)
    (h : MountInv (⟨fm, fc, ⟨em, t0 :: t1 :: t2 :: rest⟩⟩ : Facade MEng Unit)) :
    (fm = true →
      (t0 ≠ LFS_ERR_OK →
        engEvents (format_fac mengE ⟨fm, fc, ⟨em, t0 :: t1 :: t2 :: rest⟩⟩).2.2 =
          [Ev.unmountE t0] ∧
        (format_fac mengE ⟨fm, fc, ⟨em, t0 :: t1 :: t2 :: rest⟩⟩).2.1 = false) ∧
      (t0 = LFS_ERR_OK → t1 ≠ LFS_ERR_OK →
        engEvents (format_fac mengE ⟨fm, fc, ⟨em, t0 :: t1 :: t2 :: rest⟩⟩).2.2 =
          [Ev.unmountE t0, Ev.formatE t1] ∧
        (format_fac mengE ⟨fm, fc, ⟨em, t0 :: t1 :: t2 :: rest⟩⟩).2.1 = false) ∧
      (t0 = LFS_ERR_OK → t1 = LFS_ERR_OK →
        engEvents (format_fac mengE ⟨fm, fc, ⟨em, t0 :: t1 :: t2 :: rest⟩⟩).2.2 =
          [Ev.unmountE t0, Ev.formatE t1, Ev.mountE t2] ∧
        (format_fac mengE ⟨fm, fc, ⟨em, t0 :: t1 :: t2 :: rest⟩⟩).2.1 =
          (t2 == LFS_ERR_OK))) ∧
    (fm = false →
      engEvents (format_fac mengE ⟨fm, fc, ⟨em, t0 :: t1 :: t2 :: rest⟩⟩).2.2 =
        [Ev.formatE t0] ∧
      (format_fac mengE ⟨fm, fc, ⟨em, t0 :: t1 :: t2 :: rest⟩⟩).2.1 =
        (t0 == LFS_ERR_OK)) ∧
    ((format_fac mengE ⟨fm, fc, ⟨em, t0 :: t1 :: t2 :: rest⟩⟩).2.1 = true →
      (format_fac mengE ⟨fm, fc, ⟨em, t0 :: t1 :: t2 :: rest⟩⟩).1.mounted = fm ∧
      ((format_fac mengE ⟨fm, fc, ⟨em, t0 :: t1 :: t2 :: rest⟩⟩).1).eng.em = em) := by
  unfold MountInv at h
  simp only at h
  subst h
  refine ⟨?_, ?_, ?_⟩
  · intro hm
    subst hm
    refine ⟨?_, ?_, ?_⟩
    · intro h0
      simp [format_fac, xWrap_format, mengE, tpop, engEvents, h0]
    · intro h0 h1
      simp [format_fac, xWrap_format, mengE, tpop, engEvents, h0, h1]
    · intro h0 h1
      by_cases h2 : t2 = LFS_ERR_OK <;>
        simp [format_fac, xWrap_format, mengE, tpop, engEvents, h0, h1, h2]
  · intro hm
    subst hm
    by_cases h0 : t0 = LFS_ERR_OK <;>
      simp [format_fac, xWrap_format, mengE, tpop, engEvents, h0]
  · intro hret
    cases fm
    · by_cases h0 : t0 = LFS_ERR_OK <;>
        simp [format_fac, xWrap_format, mengE, tpop, h0] at hret ⊢
    · by_cases h0 : t0 = LFS_ERR_OK
      · by_cases h1 : t1 = LFS_ERR_OK
        · by_cases h2 : t2 = LFS_ERR_OK <;>
            simp [format_fac, xWrap_format, mengE, tpop, h0, h1, h2] at hret ⊢
        · simp [format_fac, xWrap_format, mengE, tpop, h0, h1] at hret
      · simp [format_fac, xWrap_format, mengE, tpop, h0] at hret

/-- C3 witness: a fully successful `format` on a mounted facade restores
the mounted state. -/
theorem c3_witness :
    (format_fac mengE
        ⟨true, some (), ⟨true, [LFS_ERR_OK, LFS_ERR_OK, LFS_ERR_OK]⟩⟩).1.mounted = true ∧
    ((format_fac mengE
        ⟨true, some (), ⟨true, [LFS_ERR_OK, LFS_ERR_OK, LFS_ERR_OK]⟩⟩).1).eng.em = true :=
  (c3_format_sequence true true (some ()) LFS_ERR_OK LFS_ERR_OK LFS_ERR_OK []
    (by decide)).2.2 (by decide)

/-- C3 counterexample: a failing `format` (engine format fails on an
unmounted facade) leaves the pre-call mount state fully restored — the
flag and the engine context are unchanged — refuting "the pre-call mount
state is restored [...] only on success". -/
theorem c3_counterexample :
    (format_fac mengE
        ⟨false, some (), ⟨false, [LFS_ERR_CORRUPT]⟩⟩).2.1 = false ∧
    (format_fac mengE
        ⟨false, some (), ⟨false, [LFS_ERR_CORRUPT]⟩⟩).1.mounted = false ∧
    ((format_fac mengE
        ⟨false, some (), ⟨false, [LFS_ERR_CORRUPT]⟩⟩).1).eng.em = false := by
  decide
